import Mathlib

/-!
Shallow embedding of site/app.js (ai-stock-simulator dashboard).

Modelling conventions:
* JavaScript numbers are modelled exactly as rationals plus the three
  non-finite values NaN, Infinity and -Infinity (JNum).  IEEE-754 rounding
  and overflow are outside the model.
* JavaScript values are modelled by JSVal.  ToNumber on objects and arrays
  (the ToPrimitive chain) is not modelled and yields NaN; string-to-number
  parsing implements the decimal subset (sign, digits, optional fraction,
  Infinity); hex and exponent forms are not modelled.
* Property access on null or undefined throws in JavaScript; functions that
  perform such an access on their argument return Except and error exactly
  on nullish input, computing totally otherwise.
* Identifier-like fields (ticker, company, sector, team, timestamps) are
  assumed to resolve to strings when present; a canonical ticker is
  Option String (none corresponds to undefined after alias resolution).
* String comparison and toUpperCase are modelled on the character list
  (code points); this agrees with the UTF-16 behaviour of the source on
  the Basic Multilingual Plane.
* The watchlist comparator returns 1 when a.ticker > b.ticker and -1
  otherwise; it never returns 0, so it is a consistent comparator only on
  rows with pairwise distinct tickers, and ECMA-262 leaves the relative
  order of equal-ticker rows implementation-defined.  The model realizes
  one compliant outcome (an insertion sort over the ticker key); the order
  theorems are stated for pairwise distinct tickers, where every compliant
  implementation produces the same, unique, ascending arrangement.
-/

/-- A JavaScript number: a finite rational or one of NaN, Infinity, -Infinity. -/
inductive JNum where
  | fin (q : ℚ)
  | nan
  | inf
  | ninf
deriving DecidableEq

/-- A JavaScript value (object-to-primitive coercion and reference identity
are not modelled). -/
inductive JSVal where
  | vUndefined
  | vNull
  | vBool (b : Bool)
  | vNum (n : JNum)
  | vStr (s : String)
  | vArr (xs : List JSVal)
  | vObj (fields : List (String × JSVal))

/-- The two nullish JavaScript values. -/
def nullish : JSVal → Bool
  | .vNull => true
  | .vUndefined => true
  | _ => false

/-- JavaScript truthiness for the value shapes the model carries. -/
def truthy : JSVal → Bool
  | .vUndefined => false
  | .vNull => false
  | .vBool b => b
  | .vNum (.fin q) => q ≠ 0
  | .vNum .nan => false
  | .vNum _ => true
  | .vStr s => s ≠ ""
  | .vArr _ => true
  | .vObj _ => true

/-- Character predicate for the whitespace trimmed by JavaScript. -/
def isSpaceC (c : Char) : Bool := c = ' ' ∨ c = '\t' ∨ c = '\n' ∨ c = '\r'

/-- Trim (the String.prototype.trim of JavaScript), on character lists. -/
def trimChars (cs : List Char) : List Char :=
  ((cs.dropWhile isSpaceC).reverse.dropWhile isSpaceC).reverse

/-- Trim of a string. -/
def jsTrim (s : String) : String := String.mk (trimChars s.toList)

/-- toUpperCase, character-wise (ASCII, as Char.toUpper). -/
def jsToUpper (s : String) : String := String.mk (s.toList.map Char.toUpper)

/-- Numeric value of a digit list, most significant first. -/
def digitsVal (ds : List Char) : ℕ := ds.foldl (fun a c => a * 10 + (c.toNat - 48)) 0

/-- Parse an unsigned decimal literal: digits, optionally a dot and more
digits, at least one digit in total.  Returns none when the shape is not
numeric (which JavaScript maps to NaN). -/
def parsePosDec (cs : List Char) : Option ℚ :=
  let intP := cs.takeWhile Char.isDigit
  let rest := cs.dropWhile Char.isDigit
  match rest with
  | [] => if intP = [] then none else some ((digitsVal intP : ℕ) : ℚ)
  | c :: frac =>
    if c = '.' ∧ frac.all Char.isDigit ∧ (intP ≠ [] ∨ frac ≠ []) then
      some (((digitsVal intP : ℕ) : ℚ) + ((digitsVal frac : ℕ) : ℚ) / ((10 ^ frac.length : ℕ) : ℚ))
    else none

/-- Magnitude part of Number(string): Infinity, a decimal literal, or NaN. -/
def parseMag (cs : List Char) : JNum :=
  if cs = "Infinity".toList then .inf
  else
    match parsePosDec cs with
    | some q => .fin q
    | none => .nan

/-- Negation on JavaScript numbers. -/
def negJNum : JNum → JNum
  | .fin q => .fin (-q)
  | .inf => .ninf
  | .ninf => .inf
  | .nan => .nan

/-- Number(string): trim, empty gives 0, optional sign, then a magnitude. -/
def strToNum (s : String) : JNum :=
  match trimChars s.toList with
  | [] => .fin 0
  | '-' :: rest => negJNum (parseMag rest)
  | '+' :: rest => parseMag rest
  | t => parseMag t

/-- The ToNumber conversion for the shapes the model carries (objects and
arrays yield NaN here; their ToPrimitive chain is not modelled). -/
def toNumber : JSVal → JNum
  | .vUndefined => .nan
  | .vNull => .fin 0
  | .vBool b => .fin (if b then 1 else 0)
  | .vNum n => n
  | .vStr s => strToNum s
  | .vArr _ => .nan
  | .vObj _ => .nan

/-- The finite part of a JavaScript number; none for NaN and infinities.
This is the shape of the isFinite-guarded reads in the source. -/
def finPart : JNum → Option ℚ
  | .fin q => some q
  | _ => none

/-- The global isFinite (coerces with ToNumber at call sites in the model). -/
def jsFinite (n : JNum) : Bool :=
  match n with
  | .fin _ => true
  | _ => false

/-- Substring test on character lists (String.prototype.includes). -/
def listInfixB (needle : List Char) : List Char → Bool
  | [] => needle.isEmpty
  | h :: t => needle.isPrefixOf (h :: t) || listInfixB needle t

/-- String containment, hay.includes(needle). -/
def strContains (hay needle : String) : Bool := listInfixB needle.toList hay.toList

/-- Join a list of strings with a separator (used for the path d attribute
and for the issue body lines). -/
def joinWith (sep : String) : List String → String
  | [] => ""
  | [x] => x
  | x :: xs => x ++ sep ++ joinWith sep xs

/-- Left-pad a string with zeros up to the given length. -/
def padZeros (s : String) (len : ℕ) : String :=
  String.mk (List.replicate (len - s.length) '0') ++ s

/-- Decimal digit strings of a rational whose reduced denominator divides a
power of ten: the exponent of the smallest such power. -/
def pow10exp (den : ℕ) : Option ℕ := (List.range 40).find? (fun k => den ∣ 10 ^ k)

/-- ToString for a finite JavaScript number.  Integers print as integers;
rationals with a decimal expansion print that expansion (the values a
double can hold all do); other rationals fall back to a fraction form that
no double-valued run reaches. -/
def ratToStr (q : ℚ) : String :=
  let sign := if q < 0 then "-" else ""
  let a := |q|
  match pow10exp a.den with
  | some k =>
    let scaled := a.num.natAbs * (10 ^ k / a.den)
    let ip := scaled / 10 ^ k
    let fp := scaled % 10 ^ k
    if k = 0 then sign ++ toString ip
    else sign ++ toString ip ++ "." ++ padZeros (toString fp) k
  | none => sign ++ toString a.num ++ "/" ++ toString a.den

/-- ToString for a JavaScript number. -/
def jnumToStr : JNum → String
  | .fin q => ratToStr q
  | .nan => "NaN"
  | .inf => "Infinity"
  | .ninf => "-Infinity"

/-- Number.prototype.toFixed(d): round half away from zero at d decimals
and print with exactly d fraction digits. -/
def toFixed (q : ℚ) (d : ℕ) : String :=
  let sign := if q < 0 then "-" else ""
  let m : ℕ := 10 ^ d
  let n : ℕ := (Rat.floor (|q| * (m : ℚ) + 1 / 2)).toNat
  if d = 0 then sign ++ toString (n / m)
  else sign ++ toString (n / m) ++ "." ++ padZeros (toString (n % m)) d

/-- fmtNum of the source: the missing-value dash for null, undefined or a
value that is not a number, otherwise toFixed.  Call sites pass the
canonical optional rationals, so the guard is the none test. -/
def fmtNum (x : Option ℚ) (digits : ℕ := 2) : String :=
  match x with
  | none => "—"
  | some q => toFixed q digits

/-- Insert thousands separators (toLocaleString, en-US grouping). -/
def groupThousands (s : String) : String :=
  joinWith "," (((chunks3 s.toList.reverse).map (fun g => String.mk g.reverse)).reverse)
where
  chunks3 : List Char → List (List Char)
    | a :: b :: c :: rest@(_ :: _) => [a, b, c] :: chunks3 rest
    | l => [l]

/-- fmtInt of the source: dash for a missing value, otherwise Math.round
then toLocaleString. -/
def fmtInt (x : Option ℚ) : String :=
  match x with
  | none => "—"
  | some q =>
    let n : ℤ := Rat.floor (q + 1 / 2)
    (if n < 0 then "-" else "") ++ groupThousands (toString n.natAbs)

/-- replaceAll for a single-character pattern (each escapeHtml pattern is a
single character, and replaceAll then rewrites every occurrence). -/
def replaceChar (c : Char) (rep : String) (s : String) : String :=
  String.join (s.toList.map (fun ch => if ch = c then rep else String.mk [ch]))

/-- escapeHtml of the source: the five replaceAll calls in source order. -/
def escapeHtml (s : String) : String :=
  replaceChar (Char.ofNat 39) "&#039;"
    (replaceChar '"' "&quot;"
      (replaceChar '>' "&gt;"
        (replaceChar '<' "&lt;"
          (replaceChar '&' "&amp;" s))))

/-- Property access r[k] for a value already known not to be nullish:
objects look the key up (first binding wins, as in an object literal),
every other shape yields undefined. -/
def objGet (r : JSVal) (k : String) : JSVal :=
  match r with
  | .vObj fs => ((fs.find? (fun f => f.1 == k)).map (fun f => f.2)).getD .vUndefined
  | _ => .vUndefined

/-- An alias chain a ?? b ?? ... over property reads: the first non-nullish
value, or the last value of the chain (?? short-circuits, so only reads up
to the first non-nullish key happen; every read is on the same receiver,
so observably the chain only throws when the receiver is nullish, which
the normalizers check once). -/
def chainP (r : JSVal) : List String → JSVal
  | [] => .vUndefined
  | [k] => objGet r k
  | k :: ks => if nullish (objGet r k) then chainP r ks else objGet r k

/-- Trailing ?? with a literal default. -/
def withDefault (v d : JSVal) : JSVal := if nullish v then d else v

/-- Read a resolved identifier-like value as a string (non-string identifier
values are outside the model, see the header). -/
def asStrD (v : JSVal) (d : String) : String :=
  match v with
  | .vStr s => s
  | _ => d

/-- Read a resolved ticker value: undefined stays none. -/
def asStrOpt : JSVal → Option String
  | .vStr s => some s
  | _ => none

/-- Canonical price row produced by normalizePriceRow (the raw backreference
kept by the source is dropped; it only feeds the subtitle fallback). -/
structure PriceRow where
  ticker : Option String
  company : String
  sector : String
  last : Option ℚ
  prev : Option ℚ
  chg : Option ℚ
  pctChg : Option ℚ
  volume : Option ℚ
  timestamp : String
  regime : String
  macroHeadline : String
  series : Option (List JSVal)

def tickerAliases : List String := ["ticker", "symbol", "sym", "Ticker", "Symbol"]
def companyAliases : List String := ["company_name", "company", "name"]
def sectorAliases : List String := ["sector", "Sector"]
def lastAliases : List String := ["close", "last", "price", "Close", "Last"]
def prevAliases : List String := ["prev_close", "previous_close", "prev", "PrevClose"]
def volumeAliases : List String := ["volume", "vol", "Volume"]
def tsAliases : List String := ["timestamp", "time", "bar_time", "date"]

/-- The body of normalizePriceRow for a non-nullish raw record, mirroring
lines 55-86 of site/app.js.  The isFinite re-checks of lines 77-78 are
identities here because an Option rational only ever holds finite values. -/
def normalizeObj (r : JSVal) : PriceRow :=
  let lastN := toNumber (chainP r lastAliases)
  let prevN := toNumber (chainP r prevAliases)
  let volN := toNumber (chainP r volumeAliases)
  let chg : Option ℚ :=
    match finPart lastN, finPart prevN with
    | some lq, some pq => some (lq - pq)
    | _, _ => finPart (toNumber (objGet r "change"))
  let pctChg : Option ℚ :=
    match chg, finPart prevN with
    | some cq, some pq =>
      if pq = 0 then finPart (toNumber (objGet r "pct_change")) else some (cq / pq * 100)
    | _, _ => finPart (toNumber (objGet r "pct_change"))
  let series : Option (List JSVal) :=
    match objGet r "series" with
    | .vArr xs => some xs
    | _ =>
      match objGet r "history" with
      | .vArr xs => some xs
      | _ => none
  { ticker := asStrOpt (chainP r tickerAliases)
    company := asStrD (withDefault (chainP r companyAliases) (.vStr "")) ""
    sector := asStrD (withDefault (chainP r sectorAliases) (.vStr "")) ""
    last := finPart lastN
    prev := finPart prevN
    chg := chg
    pctChg := pctChg
    volume := finPart volN
    timestamp := asStrD (withDefault (chainP r tsAliases) (.vStr "")) ""
    regime := asStrD (withDefault (objGet r "regime") (.vStr "")) ""
    macroHeadline := asStrD (withDefault (objGet r "macro_headline") (.vStr "")) ""
    series := series }

/-- normalizePriceRow: the very first property read (r.ticker) throws a
TypeError when the raw record is null or undefined; otherwise the function
is total. -/
def normalizePriceRow (r : JSVal) : Except String PriceRow :=
  if nullish r then .error "TypeError" else .ok (normalizeObj r)

/-- Canonical news item. -/
structure NewsRow where
  ticker : String
  company : String
  headline : String
  timestamp : String
  eventType : String
  sentiment : String
  regime : String

/-- normalizeNewsRow, lines 88-97; throws on nullish input like the price
normalizer, total otherwise. -/
def normalizeNewsRow (n : JSVal) : Except String NewsRow :=
  if nullish n then .error "TypeError"
  else
    .ok
      { ticker := asStrD (withDefault (chainP n ["ticker", "symbol"]) (.vStr "")) ""
        company := asStrD (withDefault (objGet n "company_name") (.vStr "")) ""
        headline := asStrD (withDefault (chainP n ["headline", "title"]) (.vStr "")) ""
        timestamp := asStrD (withDefault (chainP n ["timestamp", "time", "date"]) (.vStr "")) ""
        eventType := asStrD (withDefault (chainP n ["event_type", "type"]) (.vStr "")) ""
        sentiment := asStrD (withDefault (objGet n "sentiment") (.vStr "")) ""
        regime := asStrD (withDefault (objGet n "regime") (.vStr "")) "" }

/-- Canonical leaderboard row: the numeric fields keep their possibly
non-finite Number() results, as the renderer re-checks isFinite. -/
structure LeaderRow where
  team : String
  nav : JNum
  cash : JNum
  realizedPnl : JNum

/-- normalizeLeaderRow, lines 99-106; throws on nullish input. -/
def normalizeLeaderRow (r : JSVal) : Except String LeaderRow :=
  if nullish r then .error "TypeError"
  else
    .ok
      { team := asStrD (withDefault (chainP r ["team", "Team"]) (.vStr "")) ""
        nav := toNumber (chainP r ["nav", "NAV", "value", "Value"])
        cash := toNumber (chainP r ["cash", "Cash"])
        realizedPnl := toNumber (chainP r ["realized_pnl", "RealizedPnL", "pnl", "PnL"]) }

/-- asArray, lines 47-53: a bare array, or an array under data, rows or
items (checked in that order) of a truthy value; anything else is empty. -/
def asArray (v : JSVal) : List JSVal :=
  match v with
  | .vArr xs => xs
  | _ =>
    if truthy v then
      match objGet v "data" with
      | .vArr xs => xs
      | _ =>
        match objGet v "rows" with
        | .vArr xs => xs
        | _ =>
          match objGet v "items" with
          | .vArr xs => xs
          | _ => []
    else []

/-- Truthiness of a canonical ticker (undefined and the empty string are
falsy, so such rows are dropped by the watchlist and by refresh). -/
def truthyTicker : Option String → Bool
  | some s => s ≠ ""
  | none => false

/-- A ticker in a template literal (undefined prints as the word undefined;
rendered rows always carry a truthy ticker). -/
def tickerDisp (r : PriceRow) : String := r.ticker.getD "undefined"

/-- Sort key of the watchlist comparator of line 134 (1 when
a.ticker > b.ticker, otherwise -1, never 0).  On distinct keys the
comparator is consistent and forces the ascending key order; on equal keys
it reports -1 both ways, so their relative order is implementation-defined
(see watchCmp and the C9 theorems).  Rows reaching the sort passed the
truthy-ticker filter, so the default key for a missing ticker is never
compared. -/
def tickKey (r : PriceRow) : List Char := (r.ticker.getD "").toList

def tickerLe (a b : PriceRow) : Prop := tickKey a ≤ tickKey b

instance : DecidableRel tickerLe := fun a b => inferInstanceAs (Decidable (tickKey a ≤ tickKey b))

/-- The watchlist sort: one compliant outcome of Array.prototype.sort under
the line-134 comparator (ascending by ticker key; equal-ticker rows keep
their relative order here, one of the orders a host may produce). -/
def sortWatch (rows : List PriceRow) : List PriceRow := rows.insertionSort tickerLe

/-- The uppercased haystack of the search filter: the template literal
concatenates ticker, one space and company before uppercasing. -/
def searchHay (r : PriceRow) : String := jsToUpper (tickerDisp r ++ " " ++ r.company)

/-- The filtered and sorted row list of renderWatchlist (lines 123-134):
trimmed uppercased search text, sector select value, then the three
filters and the ticker sort in source order. -/
def renderWatchlistRows (prices : List PriceRow) (searchRaw sectorFilter : String) :
    List PriceRow :=
  let q := jsToUpper (jsTrim searchRaw)
  sortWatch
    (((prices.filter (fun r => truthyTicker r.ticker)).filter
        (fun r => sectorFilter == "" || r.sector == sectorFilter)).filter
        (fun r => q == "" || strContains (searchHay r) q))

/-- The innerHTML assigned to one watchlist row (lines 150-159).  Ticker
and company (or sector fallback) are interpolated raw, without escapeHtml. -/
def watchRowHtml (r : PriceRow) : String :=
  let chgClass := match r.chg with
    | none => ""
    | some c => if 0 ≤ c then "pos" else "neg"
  let pctStr := match r.pctChg with
    | none => "—"
    | some _ => fmtNum r.pctChg 2 ++ "%"
  let tick := tickerDisp r
  let secondLine := if r.company ≠ "" then r.company else if r.sector ≠ "" then r.sector else ""
  let lastCell := match r.last with
    | none => "—"
    | some _ => fmtNum r.last 2
  let chgCell := match r.chg with
    | none => "—"
    | some _ => fmtNum r.chg 2
  let volCell := match r.volume with
    | none => "—"
    | some _ => fmtInt r.volume
  "\n      <td>\n        <div class=\"ticker\">" ++ tick ++
    "</div>\n        <div class=\"small muted\">" ++ secondLine ++
    "</div>\n      </td>\n      <td class=\"right\">" ++ lastCell ++
    "</td>\n      <td class=\"right " ++ chgClass ++ "\">" ++ chgCell ++
    "</td>\n      <td class=\"right " ++ chgClass ++ "\">" ++ pctStr ++
    "</td>\n      <td class=\"right\">" ++ volCell ++ "</td>\n    "

/-- The innerHTML of one news item (lines 201-212): every user-supplied
field goes through escapeHtml here. -/
def newsItemHtml (n : NewsRow) : String :=
  let title := if n.company ≠ "" then n.ticker ++ " (" ++ n.company ++ ")" else n.ticker
  let titleEsc := escapeHtml title
  let tsEsc := escapeHtml n.timestamp
  let evEsc := escapeHtml n.eventType
  let regimePart := if n.regime ≠ "" then " • " ++ escapeHtml n.regime else ""
  let headEsc := escapeHtml n.headline
  "\n      <div class=\"news-head\">\n        <div class=\"news-title\">" ++ titleEsc ++
    "</div>\n        <div class=\"news-meta\">" ++ tsEsc ++
    "</div>\n      </div>\n      <div class=\"news-type\">" ++ evEsc ++ regimePart ++
    "</div>\n      <div class=\"news-body\">" ++ headEsc ++ "</div>\n    "

/-- Fixed sparkline canvas metrics (line 272). -/
def sparkW : ℚ := 600
def sparkH : ℚ := 220
def sparkPad : ℚ := 14

/-- Step 1 of drawSpark (lines 263-266): a non-empty raw series array is
mapped through Number and filtered to its finite entries. -/
def sparkSourceSeries (row : PriceRow) : Option (List ℚ) :=
  match row.series with
  | some xs => if xs.length ≠ 0 then some ((xs.map toNumber).filterMap finPart) else none
  | none => none

/-- Step 2 (lines 267-270): when no usable series of at least two points
exists, a flat 24-point series at the last price (or 100) is synthesized. -/
def sparkUsedSeries (row : PriceRow) : List ℚ :=
  match sparkSourceSeries row with
  | some s => if s.length < 2 then List.replicate 24 (row.last.getD 100) else s
  | none => List.replicate 24 (row.last.getD 100)

/-- Math.min over a series (the series is never empty where this is used). -/
def listMin : List ℚ → ℚ
  | [] => 0
  | h :: t => t.foldl min h

/-- Math.max over a series. -/
def listMax : List ℚ → ℚ
  | [] => 0
  | h :: t => t.foldl max h

/-- Line 274: span = (max - min) || 1.  The || replaces exactly the falsy
value 0 (the series is all finite, so NaN cannot arise). -/
def sparkSpan (s : List ℚ) : ℚ :=
  let d := listMax s - listMin s
  if d = 0 then 1 else d

/-- Lines 276-280: the mapped points. -/
def sparkPts (s : List ℚ) : List (ℚ × ℚ) :=
  let n := s.length
  let mx := listMax s
  let span := sparkSpan s
  s.enum.map
    (fun iv =>
      (sparkPad + (iv.1 : ℚ) * (sparkW - 2 * sparkPad) / ((n : ℚ) - 1),
       sparkPad + (mx - iv.2) * (sparkH - 2 * sparkPad) / span))

/-- A command of an SVG path d attribute, with its coordinates. -/
inductive PathCmd where
  | M (x y : ℚ)
  | L (x y : ℚ)
  | Z
deriving DecidableEq

/-- Line 292: the stroke path, a move to the first point then lines to the
rest (the source maps with the index, emitting M at index 0 and L after). -/
def linePathOf : List (ℚ × ℚ) → List PathCmd
  | [] => []
  | p :: rest => .M p.1 p.2 :: rest.map (fun x => .L x.1 x.2)

/-- Lines 283-289: the closed fill path, from the baseline up to the first
point, along every further point, back down to the baseline, then Z. -/
def areaPathOf (pts : List (ℚ × ℚ)) : List PathCmd :=
  let p0 := pts.headD (0, 0)
  let pl := pts.getLastD (0, 0)
  [.M p0.1 (sparkH - sparkPad), .L p0.1 p0.2] ++
    (pts.drop 1).map (fun x => .L x.1 x.2) ++
    [.L pl.1 (sparkH - sparkPad), .Z]

/-- The geometry drawSpark produces: stroke path, fill path and the final
point marker (lines 283-312). -/
structure Spark where
  line : List PathCmd
  area : List PathCmd
  dot : ℚ × ℚ

def drawSpark (row : PriceRow) : Spark :=
  let s := sparkUsedSeries row
  let pts := sparkPts s
  { line := linePathOf pts
    area := areaPathOf pts
    dot := pts.getLastD (0, 0) }

/-- Coordinates visited by a path (M and L commands). -/
def pathPoints (cmds : List PathCmd) : List (ℚ × ℚ) :=
  cmds.filterMap
    (fun c =>
      match c with
      | .M x y => some (x, y)
      | .L x y => some (x, y)
      | .Z => none)

def isLCmd : PathCmd → Bool
  | .L _ _ => true
  | _ => false

def isZCmd : PathCmd → Bool
  | .Z => true
  | _ => false

/-- A well-formed closed area: one leading move, line segments, one final Z. -/
def validTail : List PathCmd → Bool
  | [] => false
  | [c] => isZCmd c
  | c :: rest => isLCmd c && validTail rest

def validClosedArea : List PathCmd → Bool
  | .M _ _ :: rest => validTail rest
  | _ => false

/-- The trade-intent form fields (raw input element values). -/
structure TradeForm where
  fTeam : String
  fSide : String
  fTicker : String
  fQty : String
  fType : String
  fLimit : String
  fNotes : String

/-- Line 329: (value || "").trim() || "team1". -/
def teamOf (f : TradeForm) : String :=
  if jsTrim f.fTeam = "" then "team1" else jsTrim f.fTeam

/-- Line 332: Number(value || 0); the || replaces only the empty (falsy)
string by the number 0. -/
def qtyOf (f : TradeForm) : JNum :=
  if f.fQty = "" then .fin 0 else strToNum f.fQty

/-- issueBodyFromForm, lines 328-346, as the list of lines before joining. -/
def issueLines (f : TradeForm) : List String :=
  let team := teamOf f
  let side := f.fSide
  let ticker := jsToUpper (jsTrim f.fTicker)
  let qty := jnumToStr (qtyOf f)
  let otype := f.fType
  let limit := jsTrim f.fLimit
  let notes := jsTrim f.fNotes
  ["team: " ++ team, "side: " ++ side, "ticker: " ++ ticker,
   "qty: " ++ qty, "order_type: " ++ otype] ++
    (if otype == "LIMIT" && limit != "" then ["limit_price: " ++ limit] else []) ++
    (if notes != "" then ["notes: " ++ notes] else [])

def issueBodyFromForm (f : TradeForm) : String := joinWith "\n" (issueLines f)

/-- The view-state singleton of lines 12-18 (UI-only fields such as the
search box and sector select live in the DOM and are passed to the
renderers as arguments here). -/
structure AppState where
  prices : List PriceRow
  news : List NewsRow
  leaderboard : List LeaderRow
  sectors : List String
  selected : Option PriceRow

/-- Line 400: new Set(pArr.map(r => r.sector).filter(Boolean)); a Set keeps
first-occurrence insertion order. -/
def sectorsOf (pArr : List PriceRow) : List String :=
  ((pArr.map (fun r => r.sector)).filter (fun s => s ≠ "")).eraseDups

/-- selectTicker, lines 229-233, restricted to its state transition: find
the first price row with the given ticker; when none exists the selection
is left unchanged (the function returns early). -/
def selectTicker (prices : List PriceRow) (sel : Option PriceRow) (t : Option String) :
    Option PriceRow :=
  match prices.find? (fun x => x.ticker == t) with
  | some r => some r
  | none => sel

/-- Lines 412-418 of refresh: auto-select the first (snapshot-order) row
when nothing was selected, then re-select the previous ticker when it
still exists among the new rows. -/
def applySelection (p : List PriceRow) (sel : Option PriceRow) : Option PriceRow :=
  let sel1 :=
    if sel.isNone && !p.isEmpty then
      match p.head? with
      | some r0 => selectTicker p sel r0.ticker
      | none => sel
    else sel
  match sel1 with
  | some s =>
    match p.find? (fun x => x.ticker == s.ticker) with
    | some still => selectTicker p sel1 still.ticker
    | none => sel1
  | none => sel1

/-- Descending timestamp order of line 395 (localeCompare of the stringified
timestamps, modelled as code-point order; the comparator is at most 0
exactly when the timestamp of b is at most the timestamp of a). -/
def newsLe (a b : NewsRow) : Prop := b.timestamp.toList ≤ a.timestamp.toList

instance : DecidableRel newsLe := fun a b =>
  inferInstanceAs (Decidable (b.timestamp.toList ≤ a.timestamp.toList))

def sortNewsDesc (rows : List NewsRow) : List NewsRow := rows.insertionSort newsLe

/-- Lines 390-395: normalize the three raw snapshot payloads.  Carried out
before any state field is assigned; a throw inside any normalizer (a
nullish array element) aborts the whole refresh into the catch block. -/
def refreshNormalize (praw nraw lraw : JSVal) :
    Except String (List PriceRow × List NewsRow × List LeaderRow) := do
  let pArr0 ← (asArray praw).mapM normalizePriceRow
  let pArr := pArr0.filter (fun r => truthyTicker r.ticker)
  let nArr0 ← (asArray nraw).mapM normalizeNewsRow
  let lArr ← (asArray lraw).mapM normalizeLeaderRow
  pure (pArr, sortNewsDesc nArr0, lArr)

/-- refresh, lines 382-427, as a state transformer over the three resolved
fetch payloads.  On success all collections are replaced together and the
selection rules run against the new rows; on an error the catch block only
writes placeholder markup, leaving every state field as it was. -/
def refresh (st : AppState) (praw nraw lraw : JSVal) : AppState :=
  match refreshNormalize praw nraw lraw with
  | .error _ => st
  | .ok (p, n, l) =>
    { prices := p
      news := n
      leaderboard := l
      sectors := sectorsOf p
      selected := applySelection p st.selected }

theorem pathPoints_Lmap (l : List (ℚ × ℚ)) :
    pathPoints (l.map (fun x => PathCmd.L x.1 x.2)) = l := by
  induction l with
  | nil => rfl
  | cons p t ih =>
    show (p.1, p.2) :: pathPoints (t.map (fun x => PathCmd.L x.1 x.2)) = p :: t
    rw [ih]

theorem pathPoints_linePathOf (pts : List (ℚ × ℚ)) : pathPoints (linePathOf pts) = pts := by
  cases pts with
  | nil => rfl
  | cons p rest =>
    show (p.1, p.2) :: pathPoints (rest.map (fun x => PathCmd.L x.1 x.2)) = p :: rest
    rw [pathPoints_Lmap]

theorem validTail_app (l : List PathCmd) (h : ∀ c ∈ l, isLCmd c = true) :
    validTail (l ++ [PathCmd.Z]) = true := by
  induction l with
  | nil => rfl
  | cons c t ih =>
    have hc : isLCmd c = true := h c (List.mem_cons_self c t)
    have ht : validTail (t ++ [PathCmd.Z]) = true :=
      ih (fun d hd => h d (List.mem_cons_of_mem c hd))
    cases t with
    | nil => simp [validTail, isZCmd, hc]
    | cons d t2 =>
      show (isLCmd c && validTail ((d :: t2) ++ [PathCmd.Z])) = true
      rw [hc, Bool.true_and]
      exact ht

theorem areaPath_valid (pts : List (ℚ × ℚ)) : validClosedArea (areaPathOf pts) = true := by
  have h : ∀ c ∈ (PathCmd.L (pts.headD (0, 0)).1 (pts.headD (0, 0)).2 ::
      ((pts.drop 1).map (fun x => PathCmd.L x.1 x.2) ++
        [PathCmd.L (pts.getLastD (0, 0)).1 (sparkH - sparkPad)])), isLCmd c = true := by
    intro c hc
    rcases List.mem_cons.mp hc with h1 | hc2
    · subst h1; rfl
    rcases List.mem_append.mp hc2 with h3 | h4
    · rcases List.mem_map.mp h3 with ⟨x, _, hx⟩
      subst hx; rfl
    · rw [List.mem_singleton.mp h4]; rfl
  have hv := validTail_app _ h
  show validTail _ = true
  simpa [List.append_assoc] using hv

theorem sparkUsedSeries_len (row : PriceRow) : 2 ≤ (sparkUsedSeries row).length := by
  unfold sparkUsedSeries
  cases h : sparkSourceSeries row with
  | none => simp
  | some s =>
    by_cases hl : s.length < 2
    · simp [hl]
    · simp only [hl, if_false]
      omega

/-- C6: for every price row, including rows without a series, with an empty
or singleton series, with an all-equal series and with non-finite entries
(dropped by the finite filter inside sparkUsedSeries), drawSpark is total,
its stroke path passes through exactly the mapped points, its fill path is
a well-formed closed area, and the marker sits at the final mapped point. -/
theorem c6_drawSpark_total (row : PriceRow) :
    2 ≤ (sparkUsedSeries row).length ∧
    pathPoints (drawSpark row).line = sparkPts (sparkUsedSeries row) ∧
    validClosedArea (drawSpark row).area = true ∧
    (drawSpark row).dot = (sparkPts (sparkUsedSeries row)).getLastD (0, 0) :=
  ⟨sparkUsedSeries_len row, pathPoints_linePathOf _, areaPath_valid _, rfl⟩

theorem foldl_min_le_foldl_max (t : List ℚ) :
    ∀ a b : ℚ, a ≤ b → t.foldl min a ≤ t.foldl max b := by
  induction t with
  | nil => intro a b h; simpa using h
  | cons x xs ih =>
    intro a b h
    simp only [List.foldl_cons]
    exact ih _ _ (le_trans (min_le_left a x) (le_trans h (le_max_left b x)))

theorem listMin_le_listMax (s : List ℚ) (hs : s ≠ []) : listMin s ≤ listMax s := by
  cases s with
  | nil => exact absurd rfl hs
  | cons h t => exact foldl_min_le_foldl_max t h h le_rfl

/-- C7 (amended): the divisor equals max minus min whenever that difference
is nonzero; it is 1 exactly on flat series (difference zero), and it is
always positive.  Differences strictly between 0 and 1 are kept, not
floored up to 1. -/
theorem c7_span_zero_only (s : List ℚ) (hs : s ≠ []) :
    0 < sparkSpan s ∧
    (listMax s - listMin s = 0 → sparkSpan s = 1) ∧
    (listMax s - listMin s ≠ 0 → sparkSpan s = listMax s - listMin s) := by
  have hmm : listMin s ≤ listMax s := listMin_le_listMax s hs
  refine ⟨?_, ?_, ?_⟩
  · by_cases hd : listMax s - listMin s = 0
    · simp [sparkSpan, hd]
    · have hpos : 0 < listMax s - listMin s := lt_of_le_of_ne (by linarith) (Ne.symm hd)
      simpa [sparkSpan, hd] using hpos
  · intro hd; simp [sparkSpan, hd]
  · intro hd; simp [sparkSpan, hd]

theorem c7_span_zero_only_witness :
    (([(5 : ℚ), 5] : List ℚ) ≠ []) ∧ sparkSpan [(5 : ℚ), 5] = 1 :=
  ⟨by simp, (c7_span_zero_only [(5 : ℚ), 5] (by simp)).2.1 (by simp [listMax, listMin])⟩

def row7 : PriceRow :=
  { ticker := some "HALF", company := "", sector := "", last := none, prev := none,
    chg := none, pctChg := none, volume := none, timestamp := "", regime := "",
    macroHeadline := "", series := some [.vNum (.fin 0), .vNum (.fin (1 / 2))] }

/-- C7 counterexample: a series whose max minus min is one half (strictly
below 1 and nonzero) keeps the divisor one half; it is not floored at 1. -/
theorem c7_counterexample :
    sparkUsedSeries row7 = [0, 1 / 2] ∧
    listMax (sparkUsedSeries row7) - listMin (sparkUsedSeries row7) < 1 ∧
    sparkSpan (sparkUsedSeries row7) ≠ 1 := by
  have h1 : sparkUsedSeries row7 = [0, 1 / 2] := rfl
  refine ⟨h1, ?_, ?_⟩ <;> rw [h1] <;> norm_num [listMax, listMin, sparkSpan]

/-- The comparator of line 134 itself: 1 when a.ticker exceeds b.ticker in
ordinal string order, and -1 otherwise.  It never returns 0, so on two rows
with the same ticker it reports each strictly before the other. -/
def watchCmp (a b : PriceRow) : ℤ := if tickKey b < tickKey a then 1 else -1

/-- Two permuted lists, both sorted ascending by ticker key, whose keys are
pairwise distinct, are equal: with distinct tickers the ascending
arrangement is unique, independent of the host sort algorithm. -/
theorem sorted_perm_unique (l1 : List PriceRow) :
    ∀ l2, l1.Perm l2 → (l1.map tickKey).Nodup →
      List.Sorted tickerLe l1 → List.Sorted tickerLe l2 → l1 = l2 := by
  induction l1 with
  | nil =>
    intro l2 hp _ _ _
    exact (List.Perm.eq_nil hp.symm).symm
  | cons a t1 ih =>
    intro l2 hp hnd hs1 hs2
    cases l2 with
    | nil => simpa using hp.length_eq
    | cons b t2 =>
      simp only [List.map_cons, List.nodup_cons] at hnd
      have ha2 : a ∈ b :: t2 := hp.subset (List.mem_cons_self a t1)
      have hb1 : b ∈ a :: t1 := hp.symm.subset (List.mem_cons_self b t2)
      have hab : a = b := by
        rcases List.mem_cons.mp ha2 with h1 | h1
        · exact h1
        rcases List.mem_cons.mp hb1 with h2 | h2
        · exact h2.symm
        have hle1 : tickerLe a b := List.rel_of_sorted_cons hs1 b h2
        have hle2 : tickerLe b a := List.rel_of_sorted_cons hs2 a h1
        have hkey : tickKey a = tickKey b := le_antisymm hle1 hle2
        exfalso
        have hmem : tickKey b ∈ t1.map tickKey := List.mem_map_of_mem tickKey h2
        rw [← hkey] at hmem
        exact hnd.1 hmem
      subst hab
      have hp2 : t1.Perm t2 := hp.cons_inv
      rw [ih t2 hp2 hnd.2 hs1.of_cons hs2.of_cons]

/-- C9 (amended): line 134 never returns 0, so the comparator is consistent
exactly on rows with pairwise distinct tickers.  For such rows the sort is
ascending by ticker under ordinal string comparison, re-running it on an
already sorted list is a no-op, re-sorting a sorted result is the identity,
and the ascending arrangement is unique, so every compliant host sort
produces this same list.  On duplicate tickers the comparator is
inconsistent and ECMA-262 leaves the order implementation-defined (see the
counterexample). -/
theorem c9_sort_distinct_tickers (rows : List PriceRow)
    (hnd : (rows.map tickKey).Nodup) :
    List.Sorted tickerLe (sortWatch rows) ∧
    (List.Sorted tickerLe rows → sortWatch rows = rows) ∧
    sortWatch (sortWatch rows) = sortWatch rows ∧
    (∀ l2, rows.Perm l2 → List.Sorted tickerLe l2 → l2 = sortWatch rows) := by
  haveI : IsTotal PriceRow tickerLe := ⟨fun a b => le_total (tickKey a) (tickKey b)⟩
  haveI : IsTrans PriceRow tickerLe := ⟨fun _ _ _ hab hbc => le_trans hab hbc⟩
  have hsorted : List.Sorted tickerLe (sortWatch rows) :=
    List.sorted_insertionSort tickerLe rows
  have hperm : (sortWatch rows).Perm rows := List.perm_insertionSort tickerLe rows
  have hndS : ((sortWatch rows).map tickKey).Nodup :=
    ((hperm.map tickKey).nodup_iff).mpr hnd
  refine ⟨hsorted, fun h => h.insertionSort_eq, hsorted.insertionSort_eq, ?_⟩
  intro l2 hpl hsl
  exact (sorted_perm_unique (sortWatch rows) l2 (hperm.trans hpl) hndS hsorted hsl).symm

def rowDupA : PriceRow :=
  { ticker := some "AA", company := "first", sector := "", last := none, prev := none,
    chg := none, pctChg := none, volume := none, timestamp := "", regime := "",
    macroHeadline := "", series := none }

def rowDupB : PriceRow :=
  { ticker := some "AA", company := "second", sector := "", last := none, prev := none,
    chg := none, pctChg := none, volume := none, timestamp := "", regime := "",
    macroHeadline := "", series := none }

def rowBB : PriceRow :=
  { ticker := some "BB", company := "", sector := "", last := none, prev := none,
    chg := none, pctChg := none, volume := none, timestamp := "", regime := "",
    macroHeadline := "", series := none }

theorem c9_sort_distinct_tickers_witness :
    ([rowDupA, rowBB].map tickKey).Nodup ∧
    List.Sorted tickerLe (sortWatch [rowDupA, rowBB]) ∧
    sortWatch (sortWatch [rowDupA, rowBB]) = sortWatch [rowDupA, rowBB] :=
  ⟨by decide, (c9_sort_distinct_tickers [rowDupA, rowBB] (by decide)).1,
   (c9_sort_distinct_tickers [rowDupA, rowBB] (by decide)).2.2.1⟩

/-- C9 counterexample: on two distinct rows that share the ticker AA the
line-134 comparator reports each strictly before the other (-1 both ways)
and never returns 0, so it is not a consistent comparator and does not
define a total order on rows with duplicate tickers; ECMA-262 then leaves
their relative sort order implementation-defined (V8 reverses such an
equal-ticker run), so the claimed idempotence over sequences containing
duplicate tickers is not a property the program guarantees. -/
theorem c9_counterexample :
    rowDupA.ticker = rowDupB.ticker ∧
    rowDupA ≠ rowDupB ∧
    watchCmp rowDupA rowDupB = -1 ∧
    watchCmp rowDupB rowDupA = -1 ∧
    watchCmp rowDupA rowDupB ≠ 0 := by
  refine ⟨rfl, ?_, by decide, by decide, by decide⟩
  intro h
  have hc := congrArg PriceRow.company h
  simp [rowDupA, rowDupB] at hc

/-- C5 (amended): a row appears in the rendered watchlist exactly when it is
a price row with a truthy ticker, the sector filter is off or matches the
sector exactly, and the trimmed uppercased search text is empty or occurs
in the uppercased concatenation of ticker, a space and company.  The search
therefore also matches across the boundary of the two fields, not only
inside each field separately. -/
theorem c5_filter_characterization (prices : List PriceRow) (searchRaw sectorFilter : String)
    (r : PriceRow) :
    r ∈ renderWatchlistRows prices searchRaw sectorFilter ↔
      r ∈ prices ∧ truthyTicker r.ticker = true ∧
        (sectorFilter = "" ∨ r.sector = sectorFilter) ∧
        (jsToUpper (jsTrim searchRaw) = "" ∨
          strContains (searchHay r) (jsToUpper (jsTrim searchRaw)) = true) := by
  unfold renderWatchlistRows sortWatch
  simp only [List.mem_insertionSort, List.mem_filter, Bool.or_eq_true, beq_iff_eq]
  tauto

def rowAB : PriceRow :=
  { ticker := some "AB", company := "CD", sector := "", last := none, prev := none,
    chg := none, pctChg := none, volume := none, timestamp := "", regime := "",
    macroHeadline := "", series := none }

/-- C5 counterexample: with ticker AB and company CD the search text b c is
included (it spans the space between the concatenated fields), although
neither the ticker nor the company contains it case-insensitively, so
membership does not reduce to the two per-field containments. -/
theorem c5_counterexample :
    renderWatchlistRows [rowAB] "b c" "" = [rowAB] ∧
    strContains (jsToUpper "AB") (jsToUpper (jsTrim "b c")) = false ∧
    strContains (jsToUpper "CD") (jsToUpper (jsTrim "b c")) = false :=
  ⟨rfl, rfl, rfl⟩

theorem objGet_nullish (r : JSVal) (hr : nullish r = true) (k : String) :
    objGet r k = .vUndefined := by
  cases r <;> simp [nullish] at hr <;> rfl

theorem chainP_nullish (r : JSVal) (hr : nullish r = true) :
    ∀ keys, chainP r keys = .vUndefined
  | [] => rfl
  | [k] => objGet_nullish r hr k
  | k :: k2 :: ks => by
    have h1 := objGet_nullish r hr k
    show (if nullish (objGet r k) then chainP r (k2 :: ks) else objGet r k) = .vUndefined
    rw [h1]
    exact chainP_nullish r hr (k2 :: ks)

theorem finPart_none (n : JNum) (h : jsFinite n = false) : finPart n = none := by
  cases n <;> simp_all [jsFinite, finPart]

/-- C2: whenever the alias-resolved last price and previous close both parse
to finite numbers, normalization succeeds and the derived change is exactly
their difference; when additionally the previous close is nonzero, the
derived percent change is exactly change divided by previous close times
100. -/
theorem c2_change_exact (r : JSVal) (l p : ℚ)
    (hl : toNumber (chainP r lastAliases) = .fin l)
    (hp : toNumber (chainP r prevAliases) = .fin p) :
    normalizePriceRow r = .ok (normalizeObj r) ∧
    (normalizeObj r).chg = some (l - p) ∧
    (p ≠ 0 → (normalizeObj r).pctChg = some ((l - p) / p * 100)) := by
  have hr : nullish r = false := by
    by_contra hcon
    have hx : nullish r = true := by simpa using hcon
    rw [chainP_nullish r hx lastAliases] at hl
    simp [toNumber] at hl
  refine ⟨by simp [normalizePriceRow, hr], ?_, ?_⟩
  · simp [normalizeObj, hl, hp, finPart]
  · intro hp0
    simp [normalizeObj, hl, hp, finPart, hp0]

def rawABC : JSVal :=
  .vObj [("ticker", .vStr "ABC"), ("close", .vNum (.fin 101)),
         ("prev_close", .vNum (.fin 100)), ("volume", .vNum (.fin 500))]

theorem c2_change_exact_witness :
    toNumber (chainP rawABC lastAliases) = .fin 101 ∧
    toNumber (chainP rawABC prevAliases) = .fin 100 ∧
    (normalizeObj rawABC).chg = some (101 - 100) ∧
    (normalizeObj rawABC).pctChg = some ((101 - 100) / 100 * 100) :=
  ⟨rfl, rfl, (c2_change_exact rawABC 101 100 rfl rfl).2.1,
   (c2_change_exact rawABC 101 100 rfl rfl).2.2 (by norm_num)⟩

/-- C3 (amended): for every raw record other than null and undefined the
normalizer produces exactly one canonical record and never raises, and
each of last, prev and volume is exactly the finite part of the ToNumber
coercion of its alias resolution: the unknown sentinel when that coercion
is not finite - in particular whenever every alias is absent - and the
coerced number otherwise.  Because this is coercion rather than parsing,
non-numeric empty values are zeroed instead of marked unknown: an empty
string or false at any alias position, or a null at the final alias
position (?? skips null earlier in the chain), yields 0, and the raw
change/pct_change fallbacks likewise turn null into 0; normalizing null or
undefined itself raises a TypeError (see the counterexample for all of
these). -/
theorem c3_normalizer_total_on_objects (r : JSVal) (hr : nullish r = false) :
    normalizePriceRow r = .ok (normalizeObj r) ∧
    (normalizeObj r).last = finPart (toNumber (chainP r lastAliases)) ∧
    (normalizeObj r).prev = finPart (toNumber (chainP r prevAliases)) ∧
    (normalizeObj r).volume = finPart (toNumber (chainP r volumeAliases)) ∧
    (chainP r lastAliases = .vUndefined → (normalizeObj r).last = none) ∧
    (chainP r prevAliases = .vUndefined → (normalizeObj r).prev = none) ∧
    (chainP r volumeAliases = .vUndefined → (normalizeObj r).volume = none) := by
  refine ⟨by simp [normalizePriceRow, hr], rfl, rfl, rfl, ?_, ?_, ?_⟩
  · intro h
    show finPart (toNumber (chainP r lastAliases)) = none
    rw [h]
    rfl
  · intro h
    show finPart (toNumber (chainP r prevAliases)) = none
    rw [h]
    rfl
  · intro h
    show finPart (toNumber (chainP r volumeAliases)) = none
    rw [h]
    rfl

theorem c3_normalizer_total_on_objects_witness :
    nullish (JSVal.vObj []) = false ∧
    normalizePriceRow (JSVal.vObj []) = .ok (normalizeObj (JSVal.vObj [])) ∧
    (normalizeObj (JSVal.vObj [])).last = none :=
  ⟨rfl, (c3_normalizer_total_on_objects (JSVal.vObj []) rfl).1,
   (c3_normalizer_total_on_objects (JSVal.vObj []) rfl).2.2.2.2.1 rfl⟩

/-- C3 counterexample: normalizing the null record raises a TypeError
instead of producing a record, and non-numeric empty values are zeroed
rather than marked unknown: a raw change of null gives change 0, a close of
the empty string or of false gives last 0, and a null sitting at the final
volume alias (Volume) leaks through the ?? chain and gives volume 0. -/
theorem c3_counterexample :
    normalizePriceRow JSVal.vNull = .error "TypeError" ∧
    (normalizePriceRow (JSVal.vObj [("change", JSVal.vNull)])).map PriceRow.chg =
      .ok (some 0) ∧
    (normalizePriceRow (JSVal.vObj [("close", JSVal.vStr "")])).map PriceRow.last =
      .ok (some 0) ∧
    (normalizePriceRow (JSVal.vObj [("close", JSVal.vBool false)])).map PriceRow.last =
      .ok (some 0) ∧
    (normalizePriceRow (JSVal.vObj [("Volume", JSVal.vNull)])).map PriceRow.volume =
      .ok (some 0) :=
  ⟨rfl, rfl, rfl, rfl, rfl⟩

def evilCompany : String := "<script>alert(1)</script>"

def evilRow : PriceRow :=
  { ticker := some "EVIL", company := evilCompany, sector := "", last := none, prev := none,
    chg := none, pctChg := none, volume := none, timestamp := "", regime := "",
    macroHeadline := "", series := none }

set_option maxRecDepth 100000 in
/-- C4: escapeHtml itself covers all five characters and renderNews does
escape its user-supplied fields, but renderWatchlist interpolates the
company name (and the ticker) into the row markup without escapeHtml, so
script markup inside a company name reaches the watchlist HTML verbatim:
the claim fails on the watchlist renderer. -/
theorem c4_watchlist_unescaped :
    strContains (watchRowHtml evilRow) "<script>" = true ∧
    strContains (escapeHtml evilCompany) "<script>" = false ∧
    escapeHtml (String.mk ['&', '<', '>', '"', Char.ofNat 39]) = "&amp;&lt;&gt;&quot;&#039;" ∧
    strContains
      (newsItemHtml
        { ticker := "EVIL", company := "", headline := evilCompany,
          timestamp := "", eventType := "", sentiment := "", regime := "" })
      "<script>" = false :=
  ⟨rfl, rfl, rfl, rfl⟩

/-- C8 (amended): the serialized body is the five fixed lines team, side,
ticker, qty, order_type in that order, then limit_price exactly when the
order type is LIMIT and a trimmed limit value remains, then notes exactly
when the trimmed notes are non-empty; the ticker is trimmed and upper-cased
and a blank team defaults to team1.  The quantity defaults to 0 only when
the field is blank; a non-blank, non-numeric quantity serializes as NaN
(see the counterexample). -/
theorem c8_issue_lines (f : TradeForm) :
    issueLines f =
      ["team: " ++ teamOf f, "side: " ++ f.fSide,
       "ticker: " ++ jsToUpper (jsTrim f.fTicker),
       "qty: " ++ jnumToStr (qtyOf f), "order_type: " ++ f.fType] ++
        (if f.fType == "LIMIT" && jsTrim f.fLimit != "" then
          ["limit_price: " ++ jsTrim f.fLimit] else []) ++
        (if jsTrim f.fNotes != "" then ["notes: " ++ jsTrim f.fNotes] else []) ∧
    (jsTrim f.fTeam = "" → teamOf f = "team1") ∧
    (jsTrim f.fTeam ≠ "" → teamOf f = jsTrim f.fTeam) ∧
    (f.fQty = "" → qtyOf f = .fin 0) ∧
    issueBodyFromForm f = joinWith "\n" (issueLines f) := by
  refine ⟨rfl, ?_, ?_, ?_, rfl⟩
  · intro h; simp [teamOf, h]
  · intro h; simp [teamOf, h]
  · intro h; simp [qtyOf, h]

def form4 : TradeForm :=
  { fTeam := "", fSide := "BUY", fTicker := "xyz", fQty := "10", fType := "LIMIT",
    fLimit := "42.5", fNotes := "" }

set_option maxRecDepth 100000 in
theorem c8_issue_lines_witness :
    teamOf form4 = "team1" ∧
    issueLines form4 =
      ["team: team1", "side: BUY", "ticker: XYZ", "qty: 10",
       "order_type: LIMIT", "limit_price: 42.5"] :=
  ⟨(c8_issue_lines form4).2.1 rfl, by decide⟩

def formBad : TradeForm :=
  { fTeam := "T1", fSide := "BUY", fTicker := "abc", fQty := "abc", fType := "MARKET",
    fLimit := "", fNotes := "" }

set_option maxRecDepth 100000 in
/-- C8 counterexample: the quantity field abc is non-numeric but not blank,
so || does not substitute 0; Number gives NaN and the serialized line is
qty: NaN, not qty: 0. -/
theorem c8_counterexample :
    issueLines formBad =
      ["team: T1", "side: BUY", "ticker: ABC", "qty: NaN", "order_type: MARKET"] ∧
    "qty: 0" ∉ issueLines formBad := by
  refine ⟨by decide, by decide⟩

/-- C10: when any normalizer throws after the three fetches resolved, the
refresh leaves every state field (prices, news, leaderboard, sectors,
selected) exactly as it was: the catch block only writes placeholder
markup, and the collections are only replaced, together, after all three
payloads normalized successfully. -/
theorem c10_refresh_atomic (st : AppState) (praw nraw lraw : JSVal) (e : String)
    (he : refreshNormalize praw nraw lraw = .error e) :
    refresh st praw nraw lraw = st := by
  simp [refresh, he]

def stEmpty : AppState :=
  { prices := [], news := [], leaderboard := [], sectors := [], selected := none }

theorem c10_refresh_atomic_witness :
    refreshNormalize (JSVal.vArr [JSVal.vNull]) (JSVal.vObj []) (JSVal.vObj []) =
      .error "TypeError" ∧
    refresh stEmpty (JSVal.vArr [JSVal.vNull]) (JSVal.vObj []) (JSVal.vObj []) = stEmpty :=
  ⟨rfl, c10_refresh_atomic stEmpty _ _ _ "TypeError" rfl⟩

/-- C1 (amended): after a successful refresh the new price collection
replaces the old one, and the selection behaves as follows: with no prior
selection the first row in snapshot (not ticker-sorted) order is selected,
or none when no rows exist; with a prior selection, the selection becomes
the first new row carrying the old ticker when one exists, and otherwise
keeps the old, now stale, row object: it is neither cleared nor reassigned,
so the selection can reference a ticker absent from the new prices. -/
theorem c1_selection (st : AppState) (praw nraw lraw : JSVal)
    (p : List PriceRow) (n : List NewsRow) (l : List LeaderRow)
    (hok : refreshNormalize praw nraw lraw = .ok (p, n, l)) :
    (refresh st praw nraw lraw).prices = p ∧
    (st.selected = none → (refresh st praw nraw lraw).selected = p.head?) ∧
    (∀ r, st.selected = some r →
      (refresh st praw nraw lraw).selected =
        some ((p.find? (fun x => x.ticker == r.ticker)).getD r)) := by
  have hre : refresh st praw nraw lraw =
      { prices := p, news := n, leaderboard := l, sectors := sectorsOf p,
        selected := applySelection p st.selected } := by
    simp [refresh, hok]
  rw [hre]
  refine ⟨rfl, ?_, ?_⟩
  · intro hsel
    cases p with
    | nil => simp [applySelection, hsel]
    | cons r0 rest =>
      have hfind : (r0 :: rest).find? (fun x => x.ticker == r0.ticker) = some r0 :=
        List.find?_cons_of_pos _ (beq_self_eq_true r0.ticker)
      simp [applySelection, hsel, selectTicker, hfind]
  · intro r hsel
    cases hf : p.find? (fun x => x.ticker == r.ticker) with
    | none => simp [applySelection, hsel, selectTicker, hf]
    | some still =>
      have hst : still.ticker = r.ticker := by
        have hb := List.find?_some hf
        simpa using hb
      have hcongr : (fun x : PriceRow => x.ticker == still.ticker) =
          (fun x : PriceRow => x.ticker == r.ticker) := by
        funext x; rw [hst]
      simp [applySelection, hsel, selectTicker, hcongr, hf]

def rowA : PriceRow :=
  { ticker := some "A", company := "", sector := "", last := none, prev := none,
    chg := none, pctChg := none, volume := none, timestamp := "", regime := "",
    macroHeadline := "", series := none }

def stA : AppState :=
  { prices := [rowA], news := [], leaderboard := [], sectors := [], selected := some rowA }

def prawB : JSVal := .vArr [.vObj [("ticker", .vStr "B")]]

def rowB : PriceRow := normalizeObj (.vObj [("ticker", .vStr "B")])

set_option maxRecDepth 100000 in
theorem c1_selection_witness :
    refreshNormalize prawB (JSVal.vObj []) (JSVal.vObj []) = .ok ([rowB], [], []) ∧
    (refresh stA prawB (JSVal.vObj []) (JSVal.vObj [])).selected =
      some (([rowB].find? (fun x => x.ticker == rowA.ticker)).getD rowA) :=
  ⟨rfl,
   (c1_selection stA prawB (JSVal.vObj []) (JSVal.vObj []) [rowB] [] [] rfl).2.2 rowA rfl⟩

set_option maxRecDepth 100000 in
/-- C1 counterexample: with row A selected and a refresh whose new snapshot
only carries ticker B, the new prices are the B row but the selection keeps
the stale A row: it is neither reassigned to the first row of the
ticker-ascending watchlist ordering nor cleared, and the selected ticker A
is no longer present in the price collection. -/
theorem c1_counterexample :
    (refresh stA prawB (JSVal.vObj []) (JSVal.vObj [])).prices.map PriceRow.ticker =
      [some "B"] ∧
    (refresh stA prawB (JSVal.vObj []) (JSVal.vObj [])).selected = some rowA ∧
    rowA.ticker = some "A" :=
  ⟨rfl, rfl, rfl⟩
